import Mathlib

/-!
Verification of the `secret-santa` pairing program
(`src/secret_santa/__init__.py`, `src/secret_santa/config.py`).

The development shallowly embeds the program's core:

* a parsed configuration (`Config`) as `configparser` hands it to the
  application: an ordered list of sections, each an ordered list of
  string-valued options;
* `App.pick_pairings` (`__init__.py` lines 191-235) as `pick_pairings`,
  with `random.choice` supplied as a stream `draws : Nat → Nat` of draws
  (the draw for the k-th assigned giver indexes into its option list
  modulo its length, exactly `random.choice`'s uniform pick made
  deterministic), and Python exceptions as an `Except` error type;
* `App.main_loop` (lines 281-305) as `main_loop`, with the `while` loop
  unrolled on the fuel `max_tries.toNat` (the loop runs while
  `tries < max_tries` with `tries` starting at 0, so it iterates exactly
  `max_tries.toNat` times unless it stops early), per-attempt fresh
  randomness as `drawss : Nat → Nat → Nat`, and the observable outputs
  (the pairings file write, each attempted mail) as an `Effect` list;
* `App.send_message` (lines 237-279) as `send_message`; SMTP transport
  is abstracted into two oracles per giver: did the network part of
  session setup (`smtplib.SMTP`/`starttls`/`login`) fail, and did
  message transmission (`s.send_message`/`s.quit`, the inner `try`)
  fail.  The guarded setup `try` also contains the deterministic
  `config.getboolean(app, 'mail_tls')` lookup of line 268, which the
  model performs explicitly: its failure, like the oracle's, is caught
  by `except Exception as e` and logged.  A transmission failure is
  caught by the bare `except:` whose handler evaluates `e` — a name
  that is never bound on this path (Python 3 unbinds an
  `except ... as e` target after its own block, and that handler did
  not run), so the handler itself raises `NameError`, which propagates;
* `config.gen_config` (`config.py` lines 8-51) as `genConfig`: the
  sample configuration its returned text parses to.
-/

/-- Python exceptions the modelled code can raise.  `valueError` is both
`list.remove(x)` on a missing element and `int(s)` on a non-numeric string;
`indexError` is the bare `raise IndexError` for a stuck giver;
`noSectionError`/`noOptionError` are `configparser`'s lookup failures. -/
inductive PErr
  | valueError
  | indexError
  | noSectionError
  | noOptionError
deriving DecidableEq

/-- One configuration section: its name and its options (key, value),
as `configparser` parses them. -/
structure Sect where
  name : String
  opts : List (String × String)

/-- A parsed configuration: the ordered list of sections
(`config.sections()` order). -/
structure Config where
  sections : List Sect

/-- `config.get(sec, key)`: find the section, then the option; raises
`NoSectionError` / `NoOptionError` exactly as `configparser` does. -/
def Config.getOpt (cfg : Config) (sec key : String) : Except PErr String :=
  match cfg.sections.find? (fun s => s.name == sec) with
  | none => .error .noSectionError
  | some s =>
    match s.opts.lookup key with
    | none => .error .noOptionError
    | some v => .ok v

/-- Characters of a list with surrounding whitespace removed
(Python `str.strip()` on the character list). -/
def stripChars (cs : List Char) : List Char :=
  ((cs.dropWhile Char.isWhitespace).reverse.dropWhile Char.isWhitespace).reverse

/-- Decimal digits to a number; `none` when empty or a non-digit appears. -/
def digitsToNat (cs : List Char) : Option Nat :=
  if cs.isEmpty then none
  else
    cs.foldl
      (fun a c =>
        a.bind fun n => if c.isDigit then some (n * 10 + (c.toNat - 48)) else none)
      (some 0)

/-- Python `int(s)` on a string: optional surrounding whitespace, optional
sign, decimal digits; `none` models the `ValueError` it otherwise raises. -/
def pyIntOfString (s : String) : Option Int :=
  match stripChars s.toList with
  | [] => none
  | c :: cs =>
    if c = '-' then (digitsToNat cs).map (fun n => -(n : Int))
    else if c = '+' then (digitsToNat cs).map (fun n => (n : Int))
    else (digitsToNat (c :: cs)).map (fun n => (n : Int))

/-- `config.getint(sec, key)`: fetch the raw value and convert with `int`. -/
def Config.getint (cfg : Config) (sec key : String) : Except PErr Int :=
  match cfg.getOpt sec key with
  | .error e => .error e
  | .ok v =>
    match pyIntOfString v with
    | some n => .ok n
    | none => .error .valueError

/-- Splitting helper for `pySplit`: cut a character list at whitespace. -/
def splitChars : List Char → List Char → List (List Char)
  | [], acc => [acc.reverse]
  | c :: cs, acc =>
    if c.isWhitespace then acc.reverse :: splitChars cs []
    else splitChars cs (c :: acc)

/-- Python `str.split()` with no argument, as `pick_pairings` line 203 uses
it: split on runs of whitespace, dropping empty pieces.  Note it does NOT
split on commas: `"Joe, Jane".split()` is `["Joe,", "Jane"]`. -/
def pySplit (s : String) : List String :=
  ((splitChars s.toList []).filter (fun p => !p.isEmpty)).map List.asString

/-- The mutable state of one `pick_pairings` pass: the `pairings` dict in
insertion order, and the `people` list of still-unassigned recipients. -/
structure PickState where
  pairings : List (String × String)
  people : List String

/-- Lines 205-220: the option list computed for giver `person`: a copy of
`people`, with `person` itself removed, then each entry of the split
exclusion list removed, then — when `--no-circles` was given — every
already-assigned giver whose recipient is `person` removed.  Each removal
is Python `list.remove`, guarded by `in`: erase the first occurrence if
present. -/
def optionsFor (noCircles : Bool) (st : PickState) (person : String)
    (exclude : List String) : List String :=
  let o1 := (st.people.erase person)
  let o2 := exclude.foldl (fun os x => os.erase x) o1
  if noCircles then
    st.pairings.foldl (fun os kv => if kv.2 = person then os.erase kv.1 else os) o2
  else o2

/-- One iteration of the `for person in self.config.sections()` loop of
`pick_pairings` (lines 196-233): skip the `secret-santa` section, look up
and split the giver's `exclude` option, compute the remaining options,
raise `IndexError` when none remain, otherwise pick one by the next random
draw, record the pairing and consume the recipient. -/
def pickStep (cfg : Config) (noCircles : Bool) (draws : Nat → Nat)
    (st : PickState) (sec : Sect) : Except PErr PickState :=
  if sec.name = "secret-santa" then .ok st
  else
    match cfg.getOpt sec.name "exclude" with
    | .error e => .error e
    | .ok exclStr =>
      let options := optionsFor noCircles st sec.name (pySplit exclStr)
      if options = [] then .error .indexError
      else
        let chosen := options.getD (draws st.pairings.length % options.length) ""
        .ok ⟨st.pairings ++ [(sec.name, chosen)], st.people.erase chosen⟩

/-- The giver loop of `pick_pairings`, propagating any raised exception. -/
def pickFold (cfg : Config) (noCircles : Bool) (draws : Nat → Nat) :
    PickState → List Sect → Except PErr PickState
  | st, [] => .ok st
  | st, sec :: rest =>
    match pickStep cfg noCircles draws st sec with
    | .error e => .error e
    | .ok st1 => pickFold cfg noCircles draws st1 rest

/-- `App.pick_pairings` (lines 191-235).  `people = self.config.sections()`
then `people.remove('secret-santa')` — a `ValueError` when no such section
exists — then the giver loop over all sections.  Returns the completed
`pairings` dict as an insertion-ordered association list. -/
def pick_pairings (cfg : Config) (noCircles : Bool) (draws : Nat → Nat) :
    Except PErr (List (String × String)) :=
  let names := cfg.sections.map Sect.name
  if "secret-santa" ∈ names then
    match pickFold cfg noCircles draws ⟨[], names.erase "secret-santa"⟩ cfg.sections with
    | .error e => .error e
    | .ok st => .ok st.pairings
  else .error .valueError

/-- The `pairings` variable of `main_loop`: unbound before the first loop
iteration, `None` after a failed attempt, a dict after a successful one. -/
inductive PVar
  | unbound
  | noneV
  | someV (ps : List (String × String))


/-- Result of the retry loop: fell through the condition with the final
`tries` and `pairings`, or an exception other than `IndexError` escaped. -/
inductive LoopRes
  | done (tries : Nat) (pv : PVar)
  | raised (tries : Nat) (e : PErr)


/-- The `while tries < max_tries and not picked` loop of `main_loop`
(lines 285-293), unrolled on the remaining iteration budget.  Attempt
number `tries` draws from the fresh stream `drawss tries`; an
`IndexError` sets `pairings = None` and retries, success stores the
pairing and stops, any other exception escapes. -/
def whileTries (cfg : Config) (noCircles : Bool) (drawss : Nat → Nat → Nat) :
    Nat → Nat → PVar → LoopRes
  | 0, tries, pv => .done tries pv
  | fuel + 1, tries, _ =>
    match pick_pairings cfg noCircles (drawss tries) with
    | .error .indexError => whileTries cfg noCircles drawss fuel (tries + 1) .noneV
    | .error e => .raised (tries + 1) e
    | .ok ps => .done (tries + 1) (.someV ps)

/-- Observable outputs of `main_loop`: the pairings-file write, a mail
actually transmitted to a giver's address, or the logged-and-skipped
record of a failed SMTP session setup. -/
inductive Effect
  | wroteFile (ps : List (String × String))
  | sentMail (toAddr name pair : String)
  | loggedSetupFailure (name : String)
deriving DecidableEq

/-- `send_message` errors: a `configparser` lookup raised while reading the
mail options (lines 250-260, outside any `try`), or the `NameError` raised
by the bare `except:` handler at line 279, which evaluates `e` — a name
unbound on that path, since `except Exception as e` at line 272 did not
run (and Python 3 would have unbound `e` after its block anyway). -/
inductive SendErr
  | cfgErr (e : PErr)
  | unboundE


/-- The truth values `configparser.getboolean` accepts (`BOOLEAN_STATES`,
compared case-insensitively); everything else raises `ValueError`. -/
def pyBoolOfString (s : String) : Option Bool :=
  let t := (s.toList.map Char.toLower).asString
  if t = "1" ∨ t = "yes" ∨ t = "true" ∨ t = "on" then some true
  else if t = "0" ∨ t = "no" ∨ t = "false" ∨ t = "off" then some false
  else none

/-- `config.getboolean(sec, key)`: fetch the raw value and convert it;
raises `NoSectionError`/`NoOptionError` on a failed lookup and
`ValueError` on a value that is not a recognised boolean. -/
def Config.getboolean (cfg : Config) (sec key : String) : Except PErr Bool :=
  match cfg.getOpt sec key with
  | .error e => .error e
  | .ok v =>
    match pyBoolOfString v with
    | some b => .ok b
    | none => .error .valueError

/-- `App.send_message` (lines 237-279).  The message body, subject, sender
and server are read from the `secret-santa` section (uncaught lookup
errors propagate; the Jinja rendering and host:port split do not affect
observable behaviour and are elided).  The guarded `try` at lines 266-271
then builds the SMTP session: `smtplib.SMTP(host, port)`, the
`config.getboolean(app, 'mail_tls')` lookup at line 268 — a deterministic
step whose `NoOptionError`/`ValueError` is raised *inside* the `try` —
then `starttls`/`login` as configured.  The network steps are the
`setupFailed` oracle; any failure among them, oracle or lookup, is caught
by `except Exception as e` and logged, and the function returns normally.
Only when the whole setup block succeeds is the message transmitted: a
failure there triggers the bare `except:` whose handler raises
`NameError` (`e` is unbound there); otherwise the mail is sent. -/
def send_message (cfg : Config) (toAddr name pair : String)
    (setupFailed sendFailed : Bool) : Except SendErr Effect :=
  match (do
      let _ ← cfg.getOpt "secret-santa" "mail_body"
      let _ ← cfg.getOpt "secret-santa" "mail_subject"
      let _ ← cfg.getOpt "secret-santa" "mail_from"
      let _ ← cfg.getOpt "secret-santa" "mail_server"
      pure () : Except PErr Unit) with
  | .error e => .error (.cfgErr e)
  | .ok _ =>
    if setupFailed then .ok (.loggedSetupFailure name)
    else
      match cfg.getboolean "secret-santa" "mail_tls" with
      | .error _ => .ok (.loggedSetupFailure name)
      | .ok _ =>
        if sendFailed then .error .unboundE
        else .ok (.sentMail toAddr name pair)

/-- An exception escaping the mail loop of `main_loop` (lines 303-305,
which has no handler), tagged with the giver being processed. -/
inductive MailCrash
  | cfgErr (giver : String) (e : PErr)
  | unboundE (giver : String)


/-- The `for k, v in pairings.items()` mail loop (lines 303-305): look up
each giver's `email` option and call `send_message`; the first escaping
exception aborts the rest of the loop, keeping the effects already
produced. -/
def sendAll (cfg : Config) (setupFail sendFail : String → Bool) :
    List (String × String) → List Effect × Option MailCrash
  | [] => ([], none)
  | (k, v) :: rest =>
    match cfg.getOpt k "email" with
    | .error e => ([], some (.cfgErr k e))
    | .ok addr =>
      match send_message cfg addr k v (setupFail k) (sendFail k) with
      | .error (.cfgErr e) => ([], some (.cfgErr k e))
      | .error .unboundE => ([], some (.unboundE k))
      | .ok eff =>
        let r := sendAll cfg setupFail sendFail rest
        (eff :: r.1, r.2)

/-- How a `main_loop` run ends.  `completed` is a normal return (process
exit 0); `exitOne` is `sys.exit(1)` after exhausting the retry budget;
`unboundPairings` is the `NameError` raised by `if pairings is None:`
when the loop body never ran; the `uncaught…` outcomes are exceptions
escaping `main_loop` (an abnormal, nonzero Python exit);
`mailHandlerNameError` is the `NameError` from `send_message`'s bare
`except:` handler. -/
inductive Outcome
  | completed (ps : List (String × String))
  | exitOne
  | unboundPairings
  | uncaughtConfig (e : PErr)
  | uncaughtPick (e : PErr)
  | uncaughtMail (giver : String) (e : PErr) (ps : List (String × String))
  | mailHandlerNameError (giver : String) (ps : List (String × String))


/-- A `main_loop` run: how many times `pick_pairings` was invoked, the
observable effects in order, and how the run ended. -/
structure MainOut where
  tries : Nat
  effects : List Effect
  outcome : Outcome

/-- Lines 295-305 of `main_loop`: what happens after the retry loop ends.
`sys.exit(1)` when `pairings` is `None`, a `NameError` when it is still
unbound, else write the pairings file when `--write-pairings` was given
and mail every giver. -/
def mainFinish (cfg : Config) (setupFail sendFail : String → Bool)
    (writePairingsFile : Bool) : LoopRes → MainOut
  | .raised t e => ⟨t, [], .uncaughtPick e⟩
  | .done t .unbound => ⟨t, [], .unboundPairings⟩
  | .done t .noneV => ⟨t, [], .exitOne⟩
  | .done t (.someV ps) =>
    let fileEffects : List Effect := if writePairingsFile then [.wroteFile ps] else []
    let sent := sendAll cfg setupFail sendFail ps
    match sent.2 with
    | none => ⟨t, fileEffects ++ sent.1, .completed ps⟩
    | some (.cfgErr k e) => ⟨t, fileEffects ++ sent.1, .uncaughtMail k e ps⟩
    | some (.unboundE k) => ⟨t, fileEffects ++ sent.1, .mailHandlerNameError k ps⟩

/-- `App.main_loop` (lines 281-305): read `max_tries` (an uncaught
`configparser` or `int` exception escapes), run the retry loop, then the
output phase. -/
def main_loop (cfg : Config) (noCircles : Bool) (drawss : Nat → Nat → Nat)
    (writePairingsFile : Bool) (setupFail sendFail : String → Bool) : MainOut :=
  match cfg.getint "secret-santa" "max_tries" with
  | .error e => ⟨0, [], .uncaughtConfig e⟩
  | .ok max_tries =>
    mainFinish cfg setupFail sendFail writePairingsFile
      (whileTries cfg noCircles drawss max_tries.toNat 0 .unbound)

/-- The pairing a finished `main_loop` run handed to the output phase
(file write and mail loop), when it got that far. -/
def usedPairing : Outcome → Option (List (String × String))
  | .completed ps => some ps
  | .uncaughtMail _ _ ps => some ps
  | .mailHandlerNameError _ ps => some ps
  | _ => none

/-- The sample configuration printed by `config.gen_config`
(`config.py` lines 8-51), as `configparser` parses its text: the process
section is named `general` (not `secret-santa`), and the four santa
sections carry `email` and `exclude` options; `Holly`'s exclusion list is
comma-separated.  Commented-out options do not appear. -/
def genConfig : Config :=
  ⟨[⟨"general",
      [("send_email", "False"),
       ("max_tries", "5"),
       ("mail_server", "smtp.google.com"),
       ("mail_tls", "True"),
       ("mail_from", "santa@example.com"),
       ("mail_subject", "Family secret santa!"),
       ("mail_body",
        "Hi \x7b\x7b name \x7d\x7d!\nYour secret santa pick has been done.  The name you\x27ve\nreceived is:\n\n\x7b\x7b pair \x7d\x7d\n\nMerry Christmas!\nRegards,\n- The Family Robot")]⟩,
    ⟨"Joe", [("email", "joe_blow@example.com"), ("exclude", "Holly")]⟩,
    ⟨"Holly", [("email", "holly_hobby@example.com"), ("exclude", "Joe, Jane")]⟩,
    ⟨"Jane", [("email", "jane_doe@example.com"), ("exclude", "Peter")]⟩,
    ⟨"Peter", [("email", "peter_piper@example.com"), ("exclude", "Jane")]⟩]⟩

/-- The exclusion set of giver `g` exactly as line 203 computes it:
the whitespace-split of `g`'s raw `exclude` option (empty when the lookup
raises, in which case `pick_pairings` never reached the split). -/
def exclSetOf (cfg : Config) (g : String) : List String :=
  match cfg.getOpt g "exclude" with
  | .ok es => pySplit es
  | .error _ => []

/-- No two-person circle: no two identifiers are mutually assigned. -/
def no2cyc (ps : List (String × String)) : Prop :=
  ¬ ∃ a b, (a, b) ∈ ps ∧ (b, a) ∈ ps

/-- The spec's conjecture (design note, section 9): with circle-prevention
enabled there is some roster (a configuration whose section names are
distinct, as `configparser` guarantees) and some sequence of random draws
for which a successful `pick_pairings` pass contains a two-person circle. -/
def specClaimCircleSlip : Prop :=
  ∃ (cfg : Config) (draws : Nat → Nat) (ps : List (String × String)),
    (cfg.sections.map Sect.name).Nodup ∧
    pick_pairings cfg true draws = .ok ps ∧
    ∃ a b, (a, b) ∈ ps ∧ (b, a) ∈ ps

/-- A three-santa configuration with empty exclusion lists; used to
exhibit concrete successful runs. -/
def demoConfig : Config :=
  ⟨[⟨"secret-santa", [("max_tries", "5")]⟩,
    ⟨"A", [("email", "a@x"), ("exclude", "")]⟩,
    ⟨"B", [("email", "b@x"), ("exclude", "")]⟩,
    ⟨"C", [("email", "c@x"), ("exclude", "")]⟩]⟩

/-- Two santas who exclude each other: every single pass gets stuck at
the first giver (its option list is empty before any draw is taken). -/
def stuckConfig : Config :=
  ⟨[⟨"secret-santa", [("max_tries", "2")]⟩,
    ⟨"A", [("email", "a@x"), ("exclude", "B")]⟩,
    ⟨"B", [("email", "b@x"), ("exclude", "A")]⟩]⟩

/-- Two santas and the full set of mail options — including `mail_tls`,
so the lookup inside the guarded SMTP-setup `try` succeeds and session
setup is decided by the network oracle alone; `pick_pairings` pairs the
two mutually, so the mail loop has two recipients. -/
def mailConfig : Config :=
  ⟨[⟨"secret-santa",
      [("max_tries", "1"), ("mail_body", "b"), ("mail_subject", "s"),
       ("mail_from", "f@x"), ("mail_server", "smtp.x"), ("mail_tls", "False")]⟩,
    ⟨"A", [("email", "a@x"), ("exclude", "")]⟩,
    ⟨"B", [("email", "b@x"), ("exclude", "")]⟩]⟩

/-- `Holly`'s exclusion list written comma-separated, as in
`gen_config`'s sample (`exclude = Joe, Jane`). -/
def commaConfig : Config :=
  ⟨[⟨"secret-santa", [("max_tries", "5")]⟩,
    ⟨"Joe", [("email", "j@x"), ("exclude", "")]⟩,
    ⟨"Holly", [("email", "h@x"), ("exclude", "Joe, Jane")]⟩,
    ⟨"Jane", [("email", "ja@x"), ("exclude", "")]⟩]⟩

/-- A configuration whose only section is `secret-santa`: an empty
roster. -/
def onlyAppConfig : Config :=
  ⟨[⟨"secret-santa", [("max_tries", "5")]⟩]⟩

/-- An empty-roster configuration with `max_tries = 0`. -/
def zeroTriesConfig : Config :=
  ⟨[⟨"secret-santa", [("max_tries", "0")]⟩]⟩

/-! ### List facts about the erasure loops of `optionsFor` -/

theorem erase_foldl_sublist (xs : List String) :
    ∀ l : List String, List.Sublist (xs.foldl (fun os x => os.erase x) l) l := by
  induction xs with
  | nil => intro l; simp
  | cons x xs ih =>
    intro l
    rw [List.foldl_cons]
    exact (ih (l.erase x)).trans (List.erase_sublist x l)

theorem circle_foldl_sublist (person : String) (ps : List (String × String)) :
    ∀ l : List String,
      List.Sublist
        (ps.foldl (fun os kv => if kv.2 = person then os.erase kv.1 else os) l) l := by
  induction ps with
  | nil => intro l; simp
  | cons kv ps ih =>
    intro l
    rw [List.foldl_cons]
    by_cases h : kv.2 = person
    · rw [if_pos h]; exact (ih _).trans (List.erase_sublist _ _)
    · rw [if_neg h]; exact ih l

theorem mem_erase_foldl {a : String} (xs : List String) :
    ∀ l : List String, l.Nodup → a ∈ xs.foldl (fun os x => os.erase x) l →
      a ∈ l ∧ a ∉ xs := by
  induction xs with
  | nil => intro l _ h; rw [List.foldl_nil] at h; exact ⟨h, by simp⟩
  | cons x xs ih =>
    intro l hl h
    rw [List.foldl_cons] at h
    obtain ⟨h1, h2⟩ := ih (l.erase x) (hl.erase x) h
    rw [hl.mem_erase_iff] at h1
    exact ⟨h1.2, by simp [h1.1, h2]⟩

theorem mem_circle_foldl {a person : String} (ps : List (String × String)) :
    ∀ l : List String, l.Nodup →
      a ∈ ps.foldl (fun os kv => if kv.2 = person then os.erase kv.1 else os) l →
      a ∈ l ∧ ∀ kv ∈ ps, kv.2 = person → a ≠ kv.1 := by
  induction ps with
  | nil => intro l _ h; rw [List.foldl_nil] at h; exact ⟨h, by simp⟩
  | cons kv ps ih =>
    intro l hl h
    rw [List.foldl_cons] at h
    by_cases hkv : kv.2 = person
    · rw [if_pos hkv] at h
      obtain ⟨h1, h2⟩ := ih (l.erase kv.1) (hl.erase _) h
      rw [hl.mem_erase_iff] at h1
      refine ⟨h1.2, ?_⟩
      intro kv' hkv' hp
      rcases List.mem_cons.mp hkv' with rfl | hm
      · exact h1.1
      · exact h2 kv' hm hp
    · rw [if_neg hkv] at h
      obtain ⟨h1, h2⟩ := ih l hl h
      refine ⟨h1, ?_⟩
      intro kv' hkv' hp
      rcases List.mem_cons.mp hkv' with rfl | hm
      · exact absurd hp hkv
      · exact h2 kv' hm hp

theorem mem_optionsFor {noCircles : Bool} {st : PickState} {person c : String}
    {ex : List String} (hnod : st.people.Nodup)
    (h : c ∈ optionsFor noCircles st person ex) :
    c ∈ st.people ∧ c ≠ person ∧ c ∉ ex ∧
      (noCircles = true → ∀ kv ∈ st.pairings, kv.2 = person → c ≠ kv.1) := by
  have h1nod : (st.people.erase person).Nodup := hnod.erase _
  cases noCircles with
  | false =>
    simp only [optionsFor, if_neg] at h
    obtain ⟨hc1, hc2⟩ := mem_erase_foldl ex _ h1nod h
    rw [hnod.mem_erase_iff] at hc1
    exact ⟨hc1.2, hc1.1, hc2, by simp⟩
  | true =>
    simp only [optionsFor, if_pos] at h
    have h2nod : (ex.foldl (fun os x => os.erase x) (st.people.erase person)).Nodup :=
      (erase_foldl_sublist ex _).nodup h1nod
    obtain ⟨hc0, hcirc⟩ := mem_circle_foldl st.pairings _ h2nod h
    obtain ⟨hc1, hc2⟩ := mem_erase_foldl ex _ h1nod hc0
    rw [hnod.mem_erase_iff] at hc1
    exact ⟨hc1.2, hc1.1, hc2, fun _ => hcirc⟩

theorem getD_mod_mem (l : List String) (k : Nat) (h : l ≠ []) :
    l.getD (k % l.length) "" ∈ l := by
  have hl : 0 < l.length := List.length_pos.mpr h
  have hk : k % l.length < l.length := Nat.mod_lt _ hl
  rw [List.getD_eq_getElem l "" hk]
  exact l.getElem_mem hk

/-! ### Inverting one giver step -/

theorem pickStep_ok {cfg : Config} {noCircles : Bool} {draws : Nat → Nat}
    {st st1 : PickState} {sec : Sect}
    (h : pickStep cfg noCircles draws st sec = .ok st1) :
    (sec.name = "secret-santa" ∧ st1 = st) ∨
      (sec.name ≠ "secret-santa" ∧ ∃ es chosen,
        cfg.getOpt sec.name "exclude" = .ok es ∧
        chosen ∈ optionsFor noCircles st sec.name (pySplit es) ∧
        st1 = ⟨st.pairings ++ [(sec.name, chosen)], st.people.erase chosen⟩) := by
  by_cases hn : sec.name = "secret-santa"
  · rw [pickStep, if_pos hn] at h
    exact .inl ⟨hn, (Except.ok.inj h).symm⟩
  · rw [pickStep, if_neg hn] at h
    cases hgo : cfg.getOpt sec.name "exclude" with
    | error e => rw [hgo] at h; cases h
    | ok es =>
      rw [hgo] at h
      simp only at h
      by_cases hop : optionsFor noCircles st sec.name (pySplit es) = []
      · rw [if_pos hop] at h; cases h
      · rw [if_neg hop] at h
        exact .inr ⟨hn, es, _, rfl, getD_mod_mem _ _ hop, (Except.ok.inj h).symm⟩

/-! ### Two-person circles -/

theorem no2cyc_append {ps : List (String × String)} {p c : String}
    (h : no2cyc ps) (hne : c ≠ p)
    (hcirc : ∀ kv ∈ ps, kv.2 = p → c ≠ kv.1) :
    no2cyc (ps ++ [(p, c)]) := by
  rintro ⟨a, b, hab, hba⟩
  rcases List.mem_append.mp hab with hab' | hab' <;>
    rcases List.mem_append.mp hba with hba' | hba'
  · exact h ⟨a, b, hab', hba'⟩
  · have hba2 : (b, a) = (p, c) := by simpa using hba'
    obtain ⟨rfl, rfl⟩ : b = p ∧ a = c := Prod.mk.inj hba2
    exact hcirc (a, b) hab' rfl rfl
  · have hab2 : (a, b) = (p, c) := by simpa using hab'
    obtain ⟨rfl, rfl⟩ : a = p ∧ b = c := Prod.mk.inj hab2
    exact hcirc (b, a) hba' rfl rfl
  · have hab2 : (a, b) = (p, c) := by simpa using hab'
    have hba2 : (b, a) = (p, c) := by simpa using hba'
    obtain ⟨rfl, rfl⟩ : a = p ∧ b = c := Prod.mk.inj hab2
    exact hne (Prod.mk.inj hba2).2.symm

/-! ### The single-pass invariant -/

theorem pickFold_inv (cfg : Config) (noCircles : Bool) (draws : Nat → Nat) :
    ∀ (l : List Sect) (st st' : PickState),
      pickFold cfg noCircles draws st l = .ok st' →
      st.people.Nodup →
      st'.pairings.map Prod.fst
          = st.pairings.map Prod.fst
              ++ (l.map Sect.name).filter (fun n => n != "secret-santa")
        ∧ (st'.pairings.map Prod.snd ++ st'.people).Perm
            (st.pairings.map Prod.snd ++ st.people)
        ∧ st'.people.Nodup
        ∧ (∀ gr ∈ st'.pairings, gr ∈ st.pairings ∨
            (gr.2 ≠ gr.1 ∧ gr.2 ∉ exclSetOf cfg gr.1))
        ∧ (noCircles = true → no2cyc st.pairings → no2cyc st'.pairings) := by
  intro l
  induction l with
  | nil =>
    intro st st' h hnod
    rw [pickFold] at h
    cases h
    exact ⟨by simp, .refl _, hnod, fun gr hgr => .inl hgr, fun _ hc => hc⟩
  | cons sec rest ih =>
    intro st st' h hnod
    rw [pickFold] at h
    cases hstep : pickStep cfg noCircles draws st sec with
    | error e => rw [hstep] at h; cases h
    | ok st1 =>
      rw [hstep] at h
      rcases pickStep_ok hstep with ⟨hn, rfl⟩ | ⟨hn, es, chosen, hgo, hcm, rfl⟩
      · obtain ⟨ih1, ih2, ih3, ih4, ih5⟩ := ih st1 st' h hnod
        refine ⟨?_, ih2, ih3, ih4, ih5⟩
        rw [ih1]
        simp [hn]
      · obtain ⟨hcp, hcne, hcex, hccirc⟩ := mem_optionsFor hnod hcm
        obtain ⟨ih1, ih2, ih3, ih4, ih5⟩ := ih _ st' h (hnod.erase chosen)
        refine ⟨?_, ?_, ih3, ?_, ?_⟩
        · rw [ih1]
          simp [hn]
        · refine ih2.trans ?_
          simp only [List.map_append, List.map_cons, List.map_nil]
          rw [List.append_assoc]
          exact ((List.perm_cons_erase hcp).symm.append_left
            (st.pairings.map Prod.snd)).trans (by simp)
        · intro gr hgr
          rcases ih4 gr hgr with hin | hnew
          · rcases List.mem_append.mp hin with h' | h'
            · exact .inl h'
            · have hg : gr = (sec.name, chosen) := by simpa using h'
              subst hg
              refine .inr ⟨hcne, ?_⟩
              simp only [exclSetOf, hgo]
              exact hcex
          · exact .inr hnew
        · intro hb hc
          refine ih5 hb ?_
          exact no2cyc_append hc hcne (hccirc hb)

/-! ### From the invariant to `pick_pairings` -/

theorem pick_pairings_ok {cfg : Config} {noCircles : Bool} {draws : Nat → Nat}
    {ps : List (String × String)}
    (h : pick_pairings cfg noCircles draws = .ok ps) :
    "secret-santa" ∈ cfg.sections.map Sect.name ∧
      ∃ pe, pickFold cfg noCircles draws
          ⟨[], (cfg.sections.map Sect.name).erase "secret-santa"⟩ cfg.sections
        = .ok ⟨ps, pe⟩ := by
  by_cases hm : "secret-santa" ∈ cfg.sections.map Sect.name
  · rw [pick_pairings] at h
    simp only [if_pos hm] at h
    cases hf : pickFold cfg noCircles draws
        ⟨[], (cfg.sections.map Sect.name).erase "secret-santa"⟩ cfg.sections with
    | error e => rw [hf] at h; cases h
    | ok st =>
      rw [hf] at h
      obtain ⟨stp, stpe⟩ := st
      cases Except.ok.inj h
      exact ⟨hm, stpe, rfl⟩
  · rw [pick_pairings] at h
    simp only [if_neg hm] at h
    cases h

theorem pick_ok_keys_values {cfg : Config} {noCircles : Bool} {draws : Nat → Nat}
    {ps : List (String × String)}
    (hnod : (cfg.sections.map Sect.name).Nodup)
    (h : pick_pairings cfg noCircles draws = .ok ps) :
    ps.map Prod.fst = (cfg.sections.map Sect.name).erase "secret-santa" ∧
      (ps.map Prod.snd).Perm ((cfg.sections.map Sect.name).erase "secret-santa") := by
  obtain ⟨hm, pe, hf⟩ := pick_pairings_ok h
  obtain ⟨h1, h2, -, -, -⟩ :=
    pickFold_inv cfg noCircles draws cfg.sections _ _ hf (hnod.erase _)
  have hkeys : ps.map Prod.fst
      = (cfg.sections.map Sect.name).filter (fun n => n != "secret-santa") := by
    simpa using h1
  have herase : (cfg.sections.map Sect.name).erase "secret-santa"
      = (cfg.sections.map Sect.name).filter (fun n => n != "secret-santa") :=
    hnod.erase_eq_filter _
  refine ⟨by rw [hkeys, herase], ?_⟩
  have hperm : (ps.map Prod.snd ++ pe).Perm
      ((cfg.sections.map Sect.name).erase "secret-santa") := by simpa using h2
  have hlen1 : ps.length + pe.length
      = ((cfg.sections.map Sect.name).erase "secret-santa").length := by
    have := hperm.length_eq
    simpa using this
  have hlen2 : ps.length
      = ((cfg.sections.map Sect.name).erase "secret-santa").length := by
    have := congrArg List.length hkeys
    rw [herase]
    simpa using this
  have hpe : pe = [] := List.eq_nil_of_length_eq_zero (by omega)
  subst hpe
  simpa using hperm

theorem pick_ok_pair_prop {cfg : Config} {noCircles : Bool} {draws : Nat → Nat}
    {ps : List (String × String)}
    (hnod : (cfg.sections.map Sect.name).Nodup)
    (h : pick_pairings cfg noCircles draws = .ok ps) :
    ∀ g r, (g, r) ∈ ps → r ≠ g ∧ r ∉ exclSetOf cfg g := by
  obtain ⟨hm, pe, hf⟩ := pick_pairings_ok h
  obtain ⟨-, -, -, h4, -⟩ :=
    pickFold_inv cfg noCircles draws cfg.sections _ _ hf (hnod.erase _)
  intro g r hgr
  rcases h4 (g, r) hgr with hin | hp
  · simp at hin
  · exact hp

theorem pick_ok_no2cyc {cfg : Config} {draws : Nat → Nat}
    {ps : List (String × String)}
    (hnod : (cfg.sections.map Sect.name).Nodup)
    (h : pick_pairings cfg true draws = .ok ps) :
    ¬ ∃ a b, (a, b) ∈ ps ∧ (b, a) ∈ ps := by
  obtain ⟨hm, pe, hf⟩ := pick_pairings_ok h
  obtain ⟨-, -, -, -, h5⟩ :=
    pickFold_inv cfg true draws cfg.sections _ _ hf (hnod.erase _)
  exact h5 rfl (by rintro ⟨a, b, hab, -⟩; simp at hab)

/-! ### The retry loop -/

theorem main_loop_eq {cfg : Config} (noCircles : Bool) (drawss : Nat → Nat → Nat)
    (writePairingsFile : Bool) (setupFail sendFail : String → Bool) {mt : Int}
    (hmt : cfg.getint "secret-santa" "max_tries" = .ok mt) :
    main_loop cfg noCircles drawss writePairingsFile setupFail sendFail
      = mainFinish cfg setupFail sendFail writePairingsFile
          (whileTries cfg noCircles drawss mt.toNat 0 .unbound) := by
  rw [main_loop, hmt]

theorem whileTries_all_stuck {cfg : Config} {noCircles : Bool}
    (drawss : Nat → Nat → Nat)
    (hall : ∀ seq, pick_pairings cfg noCircles seq = .error .indexError) :
    ∀ fuel tries pv, whileTries cfg noCircles drawss (fuel + 1) tries pv
      = .done (tries + fuel + 1) .noneV := by
  intro fuel
  induction fuel with
  | zero =>
    intro tries pv
    rw [whileTries, hall (drawss tries)]
    rfl
  | succ fuel ih =>
    intro tries pv
    rw [whileTries, hall (drawss tries)]
    rw [ih (tries + 1) .noneV]
    rw [show tries + 1 + fuel + 1 = tries + (fuel + 1) + 1 by omega]

theorem whileTries_first_success {cfg : Config} {noCircles : Bool}
    (drawss : Nat → Nat → Nat) (p : List (String × String)) :
    ∀ (j fuel tries : Nat) (pv : PVar),
      (∀ k, k < j → pick_pairings cfg noCircles (drawss (tries + k)) = .error .indexError) →
      pick_pairings cfg noCircles (drawss (tries + j)) = .ok p →
      j < fuel →
      whileTries cfg noCircles drawss fuel tries pv = .done (tries + j + 1) (.someV p) := by
  intro j
  induction j with
  | zero =>
    intro fuel tries pv hstuck hok hlt
    obtain ⟨f, rfl⟩ : ∃ f, fuel = f + 1 := ⟨fuel - 1, by omega⟩
    rw [Nat.add_zero] at hok
    rw [whileTries, hok]
  | succ j ih =>
    intro fuel tries pv hstuck hok hlt
    obtain ⟨f, rfl⟩ : ∃ f, fuel = f + 1 := ⟨fuel - 1, by omega⟩
    have h0 : pick_pairings cfg noCircles (drawss tries) = .error .indexError :=
      hstuck 0 (by omega)
    rw [whileTries, h0]
    have harr : ∀ k, k < j →
        pick_pairings cfg noCircles (drawss (tries + 1 + k)) = .error .indexError := by
      intro k hk
      have hx := hstuck (k + 1) (by omega)
      rwa [show tries + (k + 1) = tries + 1 + k by omega] at hx
    have hok' : pick_pairings cfg noCircles (drawss (tries + 1 + j)) = .ok p := by
      rwa [show tries + 1 + j = tries + (j + 1) by omega]
    rw [ih f (tries + 1) .noneV harr hok' (by omega)]
    rw [show tries + 1 + j + 1 = tries + (j + 1) + 1 by omega]

theorem whileTries_done_pv {cfg : Config} {noCircles : Bool}
    (drawss : Nat → Nat → Nat) :
    ∀ (fuel tries : Nat) (pv : PVar) (t : Nat) (pv' : PVar), pv ≠ .unbound →
      whileTries cfg noCircles drawss fuel tries pv = .done t pv' → pv' ≠ .unbound := by
  intro fuel
  induction fuel with
  | zero =>
    intro tries pv t pv' hpv h
    rw [whileTries] at h
    cases h
    exact hpv
  | succ fuel ih =>
    intro tries pv t pv' hpv h
    rw [whileTries] at h
    cases hp : pick_pairings cfg noCircles (drawss tries) with
    | ok ps =>
      rw [hp] at h
      cases h
      simp
    | error e =>
      rw [hp] at h
      cases e with
      | indexError => exact ih (tries + 1) .noneV t pv' (by simp) h
      | valueError => cases h
      | noSectionError => cases h
      | noOptionError => cases h

theorem mainFinish_someV (cfg : Config) (setupFail sendFail : String → Bool)
    (writePairingsFile : Bool) (t : Nat) (ps : List (String × String)) :
    (mainFinish cfg setupFail sendFail writePairingsFile (.done t (.someV ps))).tries = t ∧
      usedPairing (mainFinish cfg setupFail sendFail writePairingsFile
          (.done t (.someV ps))).outcome = some ps ∧
      (writePairingsFile = true →
        Effect.wroteFile ps
          ∈ (mainFinish cfg setupFail sendFail writePairingsFile
              (.done t (.someV ps))).effects) := by
  rw [mainFinish]
  cases hs : (sendAll cfg setupFail sendFail ps).2 with
  | none =>
    refine ⟨rfl, rfl, ?_⟩
    intro hw
    simp [hw]
  | some mc =>
    cases mc with
    | cfgErr k e =>
      refine ⟨rfl, rfl, ?_⟩
      intro hw
      simp [hw]
    | unboundE k =>
      refine ⟨rfl, rfl, ?_⟩
      intro hw
      simp [hw]

theorem mainFinish_outcome_ne_unbound (cfg : Config)
    (setupFail sendFail : String → Bool) (writePairingsFile : Bool) (res : LoopRes)
    (h : ∀ t pv, res = .done t pv → pv ≠ .unbound) :
    (mainFinish cfg setupFail sendFail writePairingsFile res).outcome
      ≠ .unboundPairings := by
  cases res with
  | raised t e => rw [mainFinish]; simp
  | done t pv =>
    cases pv with
    | unbound => exact absurd rfl (h t .unbound rfl)
    | noneV => rw [mainFinish]; simp
    | someV ps =>
      rw [mainFinish]
      cases hs : (sendAll cfg setupFail sendFail ps).2 with
      | none => simp
      | some mc => cases mc with
        | cfgErr k e => simp
        | unboundE k => simp

/-! ### The claims -/

/-- C1: for every successful run of `pick_pairings`, the returned pairing
is a bijection over the roster (the section names with `secret-santa`
removed): the givers are exactly the roster, in order, and the recipients
are a permutation of the roster — every identifier appears exactly once
as a key and exactly once as a value. -/
theorem claim1_pick_pairings_bijection (cfg : Config) (noCircles : Bool)
    (draws : Nat → Nat) (ps : List (String × String))
    (hnod : (cfg.sections.map Sect.name).Nodup)
    (h : pick_pairings cfg noCircles draws = .ok ps) :
    ps.map Prod.fst = (cfg.sections.map Sect.name).erase "secret-santa" ∧
      (ps.map Prod.snd).Perm ((cfg.sections.map Sect.name).erase "secret-santa") :=
  pick_ok_keys_values hnod h

theorem claim1_witness :
    ([("A", "B"), ("B", "C"), ("C", "A")] : List (String × String)).map Prod.fst
        = (demoConfig.sections.map Sect.name).erase "secret-santa" ∧
      (([("A", "B"), ("B", "C"), ("C", "A")] : List (String × String)).map
          Prod.snd).Perm ((demoConfig.sections.map Sect.name).erase "secret-santa") :=
  claim1_pick_pairings_bijection demoConfig true (fun _ => 0)
    [("A", "B"), ("B", "C"), ("C", "A")] (by decide) rfl

/-- C2: for every successful run of `pick_pairings` and every pair
`(g, r)` it records, the recipient `r` is neither `g` itself nor a member
of `g`'s exclusion set (the whitespace-split of `g`'s `exclude` option,
which is how line 203 computes it). -/
theorem claim2_pick_pairings_respects_exclusions (cfg : Config) (noCircles : Bool)
    (draws : Nat → Nat) (ps : List (String × String)) (g r : String)
    (hnod : (cfg.sections.map Sect.name).Nodup)
    (h : pick_pairings cfg noCircles draws = .ok ps)
    (hgr : (g, r) ∈ ps) :
    r ≠ g ∧ r ∉ exclSetOf cfg g :=
  pick_ok_pair_prop hnod h g r hgr

theorem claim2_witness :
    "Joe" ≠ "Holly" ∧ "Joe" ∉ exclSetOf commaConfig "Holly" :=
  claim2_pick_pairings_respects_exclusions commaConfig false
    (fun n => if n = 0 then 1 else 0)
    [("Joe", "Jane"), ("Holly", "Joe"), ("Jane", "Holly")] "Holly" "Joe"
    (by decide) rfl (by decide)

/-- C3: when the `--no-circles` flag is enabled, every successful run of
`pick_pairings` yields a pairing with no 2-cycle: there are no two
identifiers `a`, `b` with `pairing[a] = b` and `pairing[b] = a`. -/
theorem claim3_no_circles_no_two_cycle (cfg : Config) (draws : Nat → Nat)
    (ps : List (String × String))
    (hnod : (cfg.sections.map Sect.name).Nodup)
    (h : pick_pairings cfg true draws = .ok ps) :
    ¬ ∃ a b, (a, b) ∈ ps ∧ (b, a) ∈ ps :=
  pick_ok_no2cyc hnod h

theorem claim3_witness :
    ¬ ∃ a b, (a, b) ∈ ([("A", "B"), ("B", "C"), ("C", "A")] : List (String × String))
      ∧ (b, a) ∈ ([("A", "B"), ("B", "C"), ("C", "A")] : List (String × String)) :=
  claim3_no_circles_no_two_cycle demoConfig (fun _ => 0)
    [("A", "B"), ("B", "C"), ("C", "A")] (by decide) rfl

/-- C4 (counterexample): the spec conjectures that, because the
circle-prevention check only inspects pairings fixed before the current
giver, some roster and draw sequence produce a successful assignment
containing a 2-cycle.  This is false: no such configuration, draw
sequence and pairing exist. -/
theorem claim4_counterexample : ¬ specClaimCircleSlip := by
  rintro ⟨cfg, draws, ps, hnod, hok, hcyc⟩
  exact pick_ok_no2cyc hnod hok hcyc

/-- C4 (as amended): with circle-prevention enabled no successful
assignment ever contains a 2-cycle.  The check at lines 215-220 removes,
from the current giver's options, every giver already assigned to the
current giver; since one edge of any 2-cycle is necessarily fixed before
the other, the later edge is always blocked, whichever half is assigned
first. -/
theorem claim4_no_two_cycle_ever (cfg : Config) (draws : Nat → Nat)
    (ps : List (String × String))
    (hnod : (cfg.sections.map Sect.name).Nodup)
    (h : pick_pairings cfg true draws = .ok ps) :
    ¬ ∃ a b, (a, b) ∈ ps ∧ (b, a) ∈ ps := by
  intro hcyc
  exact pick_ok_no2cyc hnod h hcyc

theorem claim4_witness :
    ¬ ∃ a b, (a, b) ∈ ([("A", "C"), ("B", "A"), ("C", "B")] : List (String × String))
      ∧ (b, a) ∈ ([("A", "C"), ("B", "A"), ("C", "B")] : List (String × String)) :=
  claim4_no_two_cycle_ever demoConfig (fun _ => 1)
    [("A", "C"), ("B", "A"), ("C", "B")] (by decide) rfl

theorem pickFold_all_skip (cfg : Config) (noCircles : Bool) (draws : Nat → Nat) :
    ∀ (l : List Sect) (st : PickState), (∀ sec ∈ l, sec.name = "secret-santa") →
      pickFold cfg noCircles draws st l = .ok st := by
  intro l
  induction l with
  | nil => intro st _; rw [pickFold]
  | cons sec rest ih =>
    intro st hall
    rw [pickFold, pickStep, if_pos (hall sec (by simp))]
    exact ih st fun s hs => hall s (by simp [hs])

/-- C5: when every single-pass attempt gets stuck (`pick_pairings` raises
`IndexError` for every draw sequence), `main_loop` invokes `pick_pairings`
exactly `max_tries` times, then calls `sys.exit(1)` having produced no
effect — no pairings file, no mail.  And when an attempt succeeds first at
index `j`, the loop stops after `j + 1` invocations and uses that pairing
for the output phase (writing it to the pairings file when requested). -/
theorem claim5_retry_driver (cfg : Config) (noCircles : Bool)
    (drawss : Nat → Nat → Nat) (writePairingsFile : Bool)
    (setupFail sendFail : String → Bool) (mt : Int)
    (hmt : cfg.getint "secret-santa" "max_tries" = .ok mt)
    (hpos : 1 ≤ mt) :
    ((∀ seq, pick_pairings cfg noCircles seq = .error .indexError) →
        main_loop cfg noCircles drawss writePairingsFile setupFail sendFail
          = ⟨mt.toNat, [], .exitOne⟩)
      ∧ (∀ (j : Nat) (p : List (String × String)),
          (j : Int) < mt →
          (∀ k, k < j → pick_pairings cfg noCircles (drawss k) = .error .indexError) →
          pick_pairings cfg noCircles (drawss j) = .ok p →
          (main_loop cfg noCircles drawss writePairingsFile setupFail sendFail).tries
              = j + 1
            ∧ usedPairing (main_loop cfg noCircles drawss writePairingsFile
                setupFail sendFail).outcome = some p
            ∧ (writePairingsFile = true →
                Effect.wroteFile p ∈ (main_loop cfg noCircles drawss
                  writePairingsFile setupFail sendFail).effects)) := by
  constructor
  · intro hall
    rw [main_loop_eq noCircles drawss writePairingsFile setupFail sendFail hmt]
    obtain ⟨f, hf⟩ : ∃ f, mt.toNat = f + 1 := ⟨mt.toNat - 1, by omega⟩
    rw [hf, whileTries_all_stuck drawss hall f 0 .unbound]
    rw [Nat.zero_add f]
    rfl
  · intro j p hj hstuck hok
    rw [main_loop_eq noCircles drawss writePairingsFile setupFail sendFail hmt]
    have hjf : j < mt.toNat := by omega
    have hstuck' : ∀ k, k < j →
        pick_pairings cfg noCircles (drawss (0 + k)) = .error .indexError := by
      intro k hk
      rw [Nat.zero_add]
      exact hstuck k hk
    have hok' : pick_pairings cfg noCircles (drawss (0 + j)) = .ok p := by
      rw [Nat.zero_add]
      exact hok
    rw [whileTries_first_success drawss p j mt.toNat 0 .unbound hstuck' hok' hjf]
    rw [Nat.zero_add]
    exact mainFinish_someV cfg setupFail sendFail writePairingsFile (j + 1) p

theorem claim5_witness :
    main_loop stuckConfig false (fun _ _ => 0) false (fun _ => false) (fun _ => false)
      = ⟨2, [], .exitOne⟩ :=
  (claim5_retry_driver stuckConfig false (fun _ _ => 0) false (fun _ => false)
      (fun _ => false) 2 rfl (by decide)).1 (fun _ => rfl)

/-- C6: the claim says a failure while sending mail to one recipient is
logged and skipped, leaving the pairing intact and subsequent
`send_message` calls still made.  `mailConfig` carries every mail option
the setup block reads — in particular `mail_tls`, so the line-268 lookup
inside the guarded `try` succeeds and setup is decided by the network
oracle alone.  The code only behaves as claimed for SMTP *session setup*
failures (second conjunct: `A`'s setup fails, the failure is logged, and
`B` is still mailed).  A failure of the message *transmission* itself —
reachable here because setup genuinely succeeds — instead raises
`NameError` from the bare `except:` handler (its log call evaluates the
unbound name `e`), which propagates and aborts the mail loop: with the
pairing `[(A,B), (B,A)]` and transmission to `A`'s address failing,
`send_message` is never invoked for `B` and the run crashes (first
conjunct: no `sentMail` effect at all). -/
theorem claim6_mail_failure_behaviour :
    main_loop mailConfig false (fun _ _ => 0) false (fun _ => false) (fun n => n == "A")
        = ⟨1, [], .mailHandlerNameError "A" [("A", "B"), ("B", "A")]⟩
      ∧ main_loop mailConfig false (fun _ _ => 0) false (fun n => n == "A") (fun _ => false)
        = ⟨1, [.loggedSetupFailure "A", .sentMail "b@x" "B" "A"],
            .completed [("A", "B"), ("B", "A")]⟩ :=
  ⟨rfl, rfl⟩

/-- C7: an exclusion list written comma-separated is NOT honoured the way
a whitespace-separated one is.  Line 203 splits on whitespace only, so
`Holly`'s `exclude = Joe, Jane` yields the tokens `["Joe,", "Jane"]`, and
the token `"Joe,"` never matches the identifier `Joe`: with draws that
make `Joe` the only remaining recipient, `pick_pairings` assigns
`Holly → Joe` even though `Joe` is listed in `Holly`'s exclusions. -/
theorem claim7_comma_exclusion_ignored :
    pySplit "Joe, Jane" = ["Joe,", "Jane"] ∧
      pick_pairings commaConfig false (fun n => if n = 0 then 1 else 0)
        = .ok [("Joe", "Jane"), ("Holly", "Joe"), ("Jane", "Holly")] :=
  ⟨rfl, rfl⟩

/-- C8 (counterexample): on a configuration whose only section is
`secret-santa` — an empty roster — the program does not fail at all:
`pick_pairings` succeeds at once with the empty pairing, and `main_loop`
completes normally after one attempt, writing the (empty) pairings file
when requested and sending no mail. -/
theorem claim8_counterexample :
    pick_pairings onlyAppConfig false (fun _ => 0) = .ok [] ∧
      main_loop onlyAppConfig false (fun _ _ => 0) true (fun _ => false) (fun _ => false)
        = ⟨1, [.wroteFile []], .completed []⟩ :=
  ⟨rfl, rfl⟩

/-- C8 (as amended): for an empty roster (every section is the
`secret-santa` process section) the run is NOT a fatal error:
`pick_pairings` returns the empty pairing, and `main_loop` completes on
the first attempt with the empty pairing, writes the pairings file
(containing the empty mapping) exactly when requested, and sends no
mail. -/
theorem claim8_empty_roster_succeeds (cfg : Config) (noCircles : Bool)
    (draws : Nat → Nat) (drawss : Nat → Nat → Nat) (writePairingsFile : Bool)
    (setupFail sendFail : String → Bool) (mt : Int)
    (hroster : ∀ sec ∈ cfg.sections, sec.name = "secret-santa")
    (hmem : "secret-santa" ∈ cfg.sections.map Sect.name)
    (hmt : cfg.getint "secret-santa" "max_tries" = .ok mt)
    (hpos : 1 ≤ mt) :
    pick_pairings cfg noCircles draws = .ok [] ∧
      main_loop cfg noCircles drawss writePairingsFile setupFail sendFail
        = ⟨1, if writePairingsFile then [.wroteFile []] else [], .completed []⟩ := by
  have hpick : ∀ draws' : Nat → Nat, pick_pairings cfg noCircles draws' = .ok [] := by
    intro draws'
    rw [pick_pairings]
    simp only [if_pos hmem]
    rw [pickFold_all_skip cfg noCircles draws' cfg.sections _ hroster]
  refine ⟨hpick draws, ?_⟩
  rw [main_loop_eq noCircles drawss writePairingsFile setupFail sendFail hmt]
  obtain ⟨f, hf⟩ : ∃ f, mt.toNat = f + 1 := ⟨mt.toNat - 1, by omega⟩
  rw [hf, whileTries, hpick (drawss 0)]
  cases writePairingsFile with
  | true => rfl
  | false => rfl

theorem claim8_witness :
    pick_pairings onlyAppConfig true (fun _ => 0) = .ok [] ∧
      main_loop onlyAppConfig true (fun _ _ => 0) false (fun _ => false) (fun _ => false)
        = ⟨1, [], .completed []⟩ :=
  claim8_empty_roster_succeeds onlyAppConfig true (fun _ => 0) (fun _ _ => 0) false
    (fun _ => false) (fun _ => false) 5 (by decide) (by decide) rfl (by decide)

/-- C9: both `pick_pairings` and `main_loop` require a section named
exactly `secret-santa`.  For every configuration without one,
`people.remove('secret-santa')` raises `ValueError` in `pick_pairings`,
`config.getint('secret-santa', 'max_tries')` raises `NoSectionError`, and
`main_loop` crashes on that lookup before any pairing attempt.  The
sample configuration printed by `gen_config` is such a configuration: its
process section is named `general`. -/
theorem claim9_requires_secret_santa_section :
    (∀ (cfg : Config) (noCircles : Bool) (draws : Nat → Nat)
        (drawss : Nat → Nat → Nat) (writePairingsFile : Bool)
        (setupFail sendFail : String → Bool),
        "secret-santa" ∉ cfg.sections.map Sect.name →
        pick_pairings cfg noCircles draws = .error .valueError ∧
          cfg.getint "secret-santa" "max_tries" = .error .noSectionError ∧
          main_loop cfg noCircles drawss writePairingsFile setupFail sendFail
            = ⟨0, [], .uncaughtConfig .noSectionError⟩)
      ∧ "secret-santa" ∉ genConfig.sections.map Sect.name
      ∧ genConfig.sections.map Sect.name = ["general", "Joe", "Holly", "Jane", "Peter"] := by
  refine ⟨?_, by decide, rfl⟩
  intro cfg noCircles draws drawss writePairingsFile setupFail sendFail hmem
  have hfind : cfg.sections.find? (fun s => s.name == "secret-santa") = none := by
    rw [List.find?_eq_none]
    intro s hs hb
    exact hmem (List.mem_map.mpr ⟨s, hs, by simpa using hb⟩)
  have hgetint : cfg.getint "secret-santa" "max_tries" = .error .noSectionError := by
    rw [Config.getint, Config.getOpt, hfind]
  refine ⟨?_, hgetint, ?_⟩
  · rw [pick_pairings]
    simp only [if_neg hmem]
  · rw [main_loop, hgetint]

/-- C10: `main_loop` binds `pairings` only inside the retry loop body.
Whenever `max_tries` parses to an integer at least 1, the run never ends
with the `NameError` from reading the unbound `pairings` variable;
whenever `max_tries` is at most 0, the loop body never runs, zero
attempts are made, no effect is produced, and evaluating
`pairings is None` raises exactly that `NameError`. -/
theorem claim10_pairings_binding (cfg : Config) (noCircles : Bool)
    (drawss : Nat → Nat → Nat) (writePairingsFile : Bool)
    (setupFail sendFail : String → Bool) (mt : Int)
    (hmt : cfg.getint "secret-santa" "max_tries" = .ok mt) :
    (1 ≤ mt →
        (main_loop cfg noCircles drawss writePairingsFile setupFail sendFail).outcome
          ≠ .unboundPairings)
      ∧ (mt ≤ 0 →
        main_loop cfg noCircles drawss writePairingsFile setupFail sendFail
          = ⟨0, [], .unboundPairings⟩) := by
  constructor
  · intro hpos
    rw [main_loop_eq noCircles drawss writePairingsFile setupFail sendFail hmt]
    obtain ⟨f, hf⟩ : ∃ f, mt.toNat = f + 1 := ⟨mt.toNat - 1, by omega⟩
    rw [hf]
    apply mainFinish_outcome_ne_unbound
    intro t pv heq
    rw [whileTries] at heq
    cases hp : pick_pairings cfg noCircles (drawss 0) with
    | ok ps =>
      rw [hp] at heq
      cases heq
      simp
    | error e =>
      rw [hp] at heq
      cases e with
      | indexError => exact whileTries_done_pv drawss f 1 .noneV t pv (by simp) heq
      | valueError => cases heq
      | noSectionError => cases heq
      | noOptionError => cases heq
  · intro hneg
    rw [main_loop_eq noCircles drawss writePairingsFile setupFail sendFail hmt]
    rw [Int.toNat_of_nonpos hneg]
    rfl

theorem claim10_witness :
    main_loop zeroTriesConfig false (fun _ _ => 0) false (fun _ => false) (fun _ => false)
      = ⟨0, [], .unboundPairings⟩ :=
  (claim10_pairings_binding zeroTriesConfig false (fun _ _ => 0) false (fun _ => false)
      (fun _ => false) 0 rfl).2 (by decide)
